import Mathlib

/-!
Around: post ingestion pipeline and filtered search.

A shallow embedding of `service/main.go` and `service/ml.go`.

* Go strings are embedded as Lean strings, read as character sequences.
* A `float64` is embedded as a value (`Float64`): the program does no floating-point
  arithmetic, it only parses, stores and forwards coordinates.
* The external services (blob store, vision API, search index, wide-column store) and the
  library calls with an outcome the program branches on are fields of `Env`; the stores they
  write are explicit state (`World`).
* A handler is a function from the request to the response writer it leaves behind, the new
  `World`, the log of adapter calls and the value it panicked with, if any.
-/

namespace Around

/-! ## Values -/

/-- The values of a Go `float64`: a finite value is a rational, next to the two infinities and
NaN. -/
inductive Float64 where
  | finite (q : ℚ)
  | posInf
  | negInf
  | nan
  deriving DecidableEq

/-- The comparison `a <= b` of two `float64` values: false as soon as one side is NaN. -/
def Float64.le : Float64 → Float64 → Bool
  | .nan, _ => false
  | _, .nan => false
  | .negInf, _ => true
  | _, .posInf => true
  | .finite a, .finite b => decide (a ≤ b)
  | .finite _, .negInf => false
  | .posInf, .finite _ => false
  | .posInf, .negInf => false

/-- The Go type `error`, kept as its message. -/
abbrev Err := String

/-- The struct `Location` of main.go. -/
structure Location where
  Lat : Float64
  Lon : Float64
  deriving DecidableEq

/-- The struct `Post` of main.go. -/
structure Post where
  User : String
  Message : String
  Location : Location
  Url : String
  /-- The field `Type` of the source (a reserved word here). -/
  Type_ : String
  Face : Bool
  deriving DecidableEq

/-! ## Constants of main.go -/

def INDEX : String := "around"
def TYPE : String := "post"
def DISTANCE : String := "200km"
def BucketName : String := "post-images-286400"
def ProjectId : String := "orbital-heaven-286400"
def BigtableInstance : String := "around-post"

/-- The map `mediaType`, as its list of entries. -/
def mediaType : List (String × String) :=
  [ (".jpeg", "image"),
    (".jpg", "image"),
    (".gif", "image"),
    (".png", "image"),
    (".mov", "video"),
    (".mp4", "video"),
    (".avi", "video"),
    (".flv", "video"),
    (".wmv", "video") ]

/-- The map access `t, ok := mediaType[fileExt]`: `some t` when `ok`. -/
def mediaTypeLookup (fileExt : String) : Option String :=
  mediaType.lookup fileExt

/-- Lines 197-201 of `handlerPost`: the value assigned to `p.Type` for the extension
`fileExt`. -/
def postType (fileExt : String) : String :=
  match mediaTypeLookup fileExt with
  | some t => t
  | none => "unknown"

/-- The loop of `filepath.Ext` over the reversed path: `acc` is the part already passed, so
the suffix from the last dot of the final path element, or nothing. -/
def extLoop : List Char → List Char → List Char
  | [], _ => []
  | c :: rest, acc =>
    if c = '/' then []
    else if c = '.' then c :: acc
    else extLoop rest (c :: acc)

/-- The library function `filepath.Ext` (with `/` as the path separator). -/
def filepathExt (path : String) : String :=
  ⟨extLoop path.data.reverse []⟩

/-! ## The content filter -/

/-- The library function `strings.HasPrefix`, on character sequences. -/
def hasPrefixChars : List Char → List Char → Bool
  | _, [] => true
  | [], _ :: _ => false
  | c :: s, d :: p => c == d && hasPrefixChars s p

/-- The search of `strings.Contains`: try the pattern at every position, left to right. -/
def containsChars : List Char → List Char → Bool
  | [], substr => hasPrefixChars [] substr
  | c :: s, substr => hasPrefixChars (c :: s) substr || containsChars s substr

/-- The library function `strings.Contains`. -/
def stringsContains (s substr : String) : Bool :=
  containsChars s.data substr.data

/-- The slice `FilteredWords` of `containsFilteredWords`. -/
def FilteredWords : List String := ["fuck", "shit"]

/-- The `for _, word := range` loop of `containsFilteredWords`, returning at the first word
found. -/
def containsFilteredWordsLoop (s : String) : List String → Bool
  | [] => false
  | word :: rest =>
    if stringsContains s word then true else containsFilteredWordsLoop s rest

/-- The function `containsFilteredWords` of main.go. -/
def containsFilteredWords (s : String) : Bool :=
  containsFilteredWordsLoop s FilteredWords

/-- One iteration of the result loop of `handlerSearch` and `handlerSearchFace`
(lines 345-351 and 400-406): `ps = append(ps, p)` unless the message is filtered. -/
def appendUnlessFiltered (ps : List Post) (p : Post) : List Post :=
  if !containsFilteredWords p.Message then ps ++ [p] else ps

/-- The result loop of `handlerSearch` and `handlerSearchFace` over the posts that
`searchResult.Each` yields, starting from `var ps []Post`. -/
def collectPosts (items : List Post) : List Post :=
  items.foldl appendUnlessFiltered []

/-! ## What the specification calls a denylisted message -/

/-- The word `w` occurs in `s` as a contiguous, case-sensitive substring. -/
def IsSubstring (w s : String) : Prop :=
  ∃ pre suf : List Char, s.data = pre ++ w.data ++ suf

/-- The message contains a denylisted word, in the words of the specification. -/
def Denylisted (s : String) : Prop :=
  IsSubstring "fuck" s ∨ IsSubstring "shit" s

/-! ## The outside world -/

/-- The bytes of an uploaded file. -/
abbrev Bytes := List UInt8

/-- The part of `multipart.FileHeader` the handler reads. -/
structure FileHeader where
  Filename : String
  deriving DecidableEq

/-- The part of `storage.ObjectAttrs` the handler reads. -/
structure ObjectAttrs where
  MediaLink : String
  deriving DecidableEq

/-- A face annotation of the vision API; the program only counts them. -/
structure FaceAnnotation where
  detectionConfidence : ℚ
  deriving DecidableEq

/-- The two queries the program builds: `NewGeoDistanceQuery(field).Distance(d).Lat(lat).Lon(lon)`
and `NewMatchQuery(field, value)`. -/
inductive Query where
  | geoDistance (field : String) (distance : String) (lat lon : Float64)
  | matchQuery (field : String) (value : String)
  deriving DecidableEq

/-- One `mut.Set(family, column, ts, value)` of a Bigtable mutation. -/
structure SetCell where
  family : String
  column : String
  ts : Nat
  value : String
  deriving DecidableEq

/-- The outcomes of the library and service calls the program makes. An `Option Err` is the
returned `error` (`none` for `nil`). -/
structure Env where
  /-- The call `strconv.ParseFloat(s, 64)`. -/
  parseFloat : String → Float64 × Option Err
  /-- The call `strconv.FormatFloat(f, 'f', -1, 64)`. -/
  formatFloat : Float64 → String
  /-- The call `uuid.New()` of this request. -/
  uuidNew : String
  /-- The call `storage.NewClient(ctx)`. -/
  storageNewClient : Option Err
  /-- The call `bucket.Attrs(ctx)` on the bucket of that name. -/
  bucketAttrs : String → Option Err
  /-- The call `io.Copy(wc, file)` into the writer of object `key` of `bucket`. -/
  ioCopy : String → String → Bytes → Option Err
  /-- The call `wc.Close()`, which commits the object. -/
  writerClose : String → String → Option Err
  /-- The call `obj.ACL().Set(ctx, storage.AllUsers, storage.RoleReader)`. -/
  aclSet : String → String → Option Err
  /-- The call `obj.Attrs(ctx)`; on an error the returned attributes are nil. -/
  objectAttrs : String → String → Except Err ObjectAttrs
  /-- The call `vision.NewImageAnnotatorClient(ctx)`. -/
  newImageAnnotatorClient : Option Err
  /-- The call `client.DetectFaces(ctx, image, nil, 10)` on the image at that URI. -/
  detectFaces : String → Except Err (List FaceAnnotation)
  /-- The call `elastic.NewClient(...)`. -/
  elasticNewClient : Option Err
  /-- The call `esClient.Index().Index(index).Type(typ).Id(id).BodyJson(p).Refresh("true").Do`. -/
  indexDo : String → String → String → Post → Option Err
  /-- The call `client.Search().Index(index).Query(q).Pretty(true).Do`, with the hits as
  `searchResult.Each(reflect.TypeOf(Post{}))` yields them. -/
  searchDo : String → Query → Except Err (List Post)
  /-- The call `json.Marshal(ps)`; the encoding itself is kept symbolic, see `Body`. -/
  jsonMarshal : List Post → Option Err
  /-- The call `bigtable.NewClient(ctx, project, instance)`. -/
  bigtableNewClient : String → String → Option Err
  /-- The call `bigtable.Now()`. -/
  bigtableNow : Nat
  /-- The call `tbl.Apply(ctx, row, mut)` on the table of that name. -/
  tblApply : String → String → List SetCell → Option Err

/-- The contents of the three stores. -/
structure World where
  /-- The blob store: the objects, by bucket and key. -/
  objects : List ((String × String) × Bytes)
  /-- The documents of type `post` of the index `around`, by document id. -/
  index : List (String × Post)
  /-- The table `post` of the wide-column store: the mutations applied, by row key. -/
  rows : List (String × List SetCell)
  deriving DecidableEq

/-! ## The response writer -/

/-- What was written to the response: text, or the JSON encoding of a slice of posts (kept
symbolic). -/
inductive Body where
  | text (s : String)
  | json (ps : List Post)
  deriving DecidableEq

/-- The `http.ResponseWriter` of a request: the header map, the status passed to
`WriteHeader` (if it was called) and the writes. -/
structure ResponseWriter where
  header : List (String × String)
  status : Option Nat
  body : List Body
  deriving DecidableEq

/-- A fresh response writer. -/
def ResponseWriter.new : ResponseWriter := ⟨[], none, []⟩

/-- The call `w.Header().Set(key, value)`. -/
def ResponseWriter.headerSet (w : ResponseWriter) (key value : String) : ResponseWriter :=
  { w with header := w.header.filter (fun kv => kv.1 != key) ++ [(key, value)] }

/-- The call `w.Header().Del(key)`. -/
def ResponseWriter.headerDel (w : ResponseWriter) (key : String) : ResponseWriter :=
  { w with header := w.header.filter (fun kv => kv.1 != key) }

/-- The call `w.WriteHeader(code)`: only the first one counts. -/
def ResponseWriter.WriteHeader (w : ResponseWriter) (code : Nat) : ResponseWriter :=
  match w.status with
  | some _ => w
  | none => { w with status := some code }

/-- The call `w.Write(b)`: sends the header with status 200 if none was sent yet. -/
def ResponseWriter.Write (w : ResponseWriter) (b : Body) : ResponseWriter :=
  let w := w.WriteHeader 200
  { w with body := w.body ++ [b] }

/-- The status of the response the client is sent when the handler returns: the one set,
else 200. -/
def ResponseWriter.statusCode (w : ResponseWriter) : Nat :=
  w.status.getD 200

def StatusInternalServerError : Nat := 500

/-- The library function `http.Error(w, error, code)`. -/
def httpError (w : ResponseWriter) (error : String) (code : Nat) : ResponseWriter :=
  let w := w.headerDel "Content-Length"
  let w := w.headerSet "Content-Type" "text/plain; charset=utf-8"
  let w := w.headerSet "X-Content-Type-Options" "nosniff"
  let w := w.WriteHeader code
  w.Write (.text (error ++ "\n"))

/-- The three `w.Header().Set` calls that open every handler. -/
def setHeaders (w : ResponseWriter) : ResponseWriter :=
  ((w.headerSet "Content-Type" "application/json").headerSet
    "Access-Control-Allow-Origin" "*").headerSet
    "Access-Control-Allow-Headers" "Content-Type,Authorization"

/-! ## The adapters -/

/-- How a call of `saveToGCS` ends: it returns attributes, returns an error, or panics. -/
inductive GcsResult where
  | ok (attrs : ObjectAttrs)
  | error (err : Err)
  | panic (msg : Err)
  deriving DecidableEq

/-- The store `objects` after the object `key` of `bucket` is written (an overwrite). -/
def putObject (objects : List ((String × String) × Bytes)) (bucket key : String)
    (content : Bytes) : List ((String × String) × Bytes) :=
  objects.filter (fun o => o.1 != (bucket, key)) ++ [((bucket, key), content)]

/-- The function `saveToGCS` of main.go. The object exists from `wc.Close()` on. When
`obj.Attrs` fails its attributes are nil and the `Printf` of `attrs.MediaLink` panics. -/
def saveToGCS (env : Env) (world : World) (file : Bytes) (name : String) (id : String) :
    World × GcsResult :=
  match env.storageNewClient with
  | some err => (world, .error err)
  | none =>
    match env.bucketAttrs name with
    | some err => (world, .error err)
    | none =>
      match env.ioCopy name id file with
      | some err => (world, .error err)
      | none =>
        match env.writerClose name id with
        | some err => (world, .error err)
        | none =>
          let world := { world with objects := putObject world.objects name id file }
          match env.aclSet name id with
          | some err => (world, .error err)
          | none =>
            match env.objectAttrs name id with
            | .error _ => (world, .panic "invalid memory address or nil pointer dereference")
            | .ok attrs => (world, .ok attrs)

/-- The function `detectFacesURI` of ml.go: the returned pair `(bool, error)`. -/
def detectFacesURI (env : Env) (file : String) : Bool × Option Err :=
  match env.newImageAnnotatorClient with
  | some err => (false, some err)
  | none =>
    match env.detectFaces file with
    | .error err => (false, some err)
    | .ok _annotations => (true, none)

/-- The index after the document `id` is written (an upsert). -/
def putDocument (index : List (String × Post)) (id : String) (p : Post) :
    List (String × Post) :=
  index.filter (fun d => d.1 != id) ++ [(id, p)]

/-- The function `saveToES` of main.go: the new world and the value it panicked with, if it
did. -/
def saveToES (env : Env) (world : World) (p : Post) (id : String) : World × Option Err :=
  match env.elasticNewClient with
  | some err => (world, some err)
  | none =>
    match env.indexDo INDEX TYPE id p with
    | some err => (world, some err)
    | none => ({ world with index := putDocument world.index id p }, none)

/-- The mutation `saveToBigTable` builds from a post. -/
def postMutation (env : Env) (p : Post) : List SetCell :=
  let t := env.bigtableNow
  [ ⟨"post", "user", t, p.User⟩,
    ⟨"post", "message", t, p.Message⟩,
    ⟨"location", "lat", t, env.formatFloat p.Location.Lat⟩,
    ⟨"location", "lon", t, env.formatFloat p.Location.Lon⟩ ]

/-- The function `saveToBigTable` of main.go: the new world and the value it panicked with,
if it did. -/
def saveToBigTable (env : Env) (world : World) (p : Post) (id : String) :
    World × Option Err :=
  match env.bigtableNewClient ProjectId BigtableInstance with
  | some err => (world, some err)
  | none =>
    let mutation := postMutation env p
    match env.tblApply "post" id mutation with
    | some err => (world, some err)
    | none => ({ world with rows := world.rows ++ [(id, mutation)] }, none)

/-! ## The handlers -/

/-- A call of one of the four adapters by `handlerPost`, with its arguments. -/
inductive Call where
  | saveToGCS (file : Bytes) (name : String) (id : String)
  | detectFacesURI (file : String)
  | saveToES (p : Post) (id : String)
  | saveToBigTable (p : Post) (id : String)
  deriving DecidableEq

/-- The four adapters. -/
inductive Adapter where
  | attachmentPut
  | detectFace
  | index
  | writeRow
  deriving DecidableEq

/-- The adapter a call is a call of. -/
def Call.adapter : Call → Adapter
  | .saveToGCS _ _ _ => .attachmentPut
  | .detectFacesURI _ => .detectFace
  | .saveToES _ _ => .index
  | .saveToBigTable _ _ => .writeRow

/-- The identifier a call is given, if it takes one. -/
def Call.key : Call → Option String
  | .saveToGCS _ _ id => some id
  | .detectFacesURI _ => none
  | .saveToES _ id => some id
  | .saveToBigTable _ id => some id

/-- The post a call hands to a store, if it takes one. -/
def Call.post : Call → Option Post
  | .saveToGCS _ _ _ => none
  | .detectFacesURI _ => none
  | .saveToES p _ => some p
  | .saveToBigTable p _ => some p

/-- An entry of the call log: the call, and whether it succeeded (returned without an error
and without a panic). -/
structure Logged where
  call : Call
  ok : Bool
  deriving DecidableEq

/-- What `handlerPost` reads from the request: the form values (empty when absent), the
result of `r.FormFile("image")` and the `username` claim of the token when it is a string. -/
structure PostRequest where
  message : String
  lat : String
  lon : String
  image : Except Err (Bytes × FileHeader)
  username : Option String

/-- What a run of `handlerPost` leaves behind. -/
structure PostOutcome where
  w : ResponseWriter
  world : World
  calls : List Logged
  panicked : Option Err

/-- The function `handlerPost` of main.go. -/
def handlerPost (env : Env) (world : World) (w : ResponseWriter) (r : PostRequest) :
    PostOutcome :=
  let w := setHeaders w
  let lat := (env.parseFloat r.lat).1
  let lon := (env.parseFloat r.lon).1
  match r.username with
  | none => ⟨w, world, [], some "interface conversion: interface {} is nil, not string"⟩
  | some username =>
    let p : Post := ⟨username, r.message, ⟨lat, lon⟩, "", "", false⟩
    let id := env.uuidNew
    match r.image with
    | .error err =>
      ⟨httpError w "GCS is not setup" StatusInternalServerError, world, [], some err⟩
    | .ok (file, header) =>
      let fileExt := filepathExt header.Filename
      let p := { p with Type_ := postType fileExt }
      let c1 := Call.saveToGCS file BucketName id
      match saveToGCS env world file BucketName id with
      | (world, .panic msg) => ⟨w, world, [⟨c1, false⟩], some msg⟩
      | (world, .error err) =>
        ⟨httpError w "GCS is not setup" StatusInternalServerError, world, [⟨c1, false⟩],
          some err⟩
      | (world, .ok attrs) =>
        let p := { p with Url := attrs.MediaLink }
        let c2 := Call.detectFacesURI attrs.MediaLink
        match detectFacesURI env attrs.MediaLink with
        | (_, some err) =>
          ⟨httpError w "Failed to annotate the image" StatusInternalServerError, world,
            [⟨c1, true⟩, ⟨c2, false⟩], some err⟩
        | (faceDetected, none) =>
          let p := { p with Face := faceDetected }
          let c3 := Call.saveToES p id
          match saveToES env world p id with
          | (world, some err) => ⟨w, world, [⟨c1, true⟩, ⟨c2, true⟩, ⟨c3, false⟩], some err⟩
          | (world, none) =>
            let c4 := Call.saveToBigTable p id
            match saveToBigTable env world p id with
            | (world, some err) =>
              ⟨w, world, [⟨c1, true⟩, ⟨c2, true⟩, ⟨c3, true⟩, ⟨c4, false⟩], some err⟩
            | (world, none) =>
              ⟨w, world, [⟨c1, true⟩, ⟨c2, true⟩, ⟨c3, true⟩, ⟨c4, true⟩], none⟩

/-- What the search handlers read from the request: the query parameters (empty when
absent). -/
structure SearchRequest where
  lat : String
  lon : String
  range : String

/-- What a run of a search handler leaves behind. -/
structure SearchOutcome where
  w : ResponseWriter
  panicked : Option Err

/-- The distance `ran` of `handlerSearch`. -/
def searchRange (r : SearchRequest) : String :=
  if r.range != "" then r.range ++ "km" else DISTANCE

/-- The query `q` of `handlerSearch`. -/
def radiusQuery (env : Env) (r : SearchRequest) : Query :=
  .geoDistance "location" (searchRange r) (env.parseFloat r.lat).1 (env.parseFloat r.lon).1

/-- The query `q` of `handlerSearchFace`. -/
def faceQuery : Query := .matchQuery "face" "true"

/-- The part the two search handlers share, from `elastic.NewClient` on. -/
def searchAndWrite (env : Env) (w : ResponseWriter) (q : Query) : SearchOutcome :=
  match env.elasticNewClient with
  | some err => ⟨w, some err⟩
  | none =>
    match env.searchDo INDEX q with
    | .error err => ⟨w, some err⟩
    | .ok searchResult =>
      let ps := collectPosts searchResult
      match env.jsonMarshal ps with
      | some err => ⟨w, some err⟩
      | none => ⟨w.Write (.json ps), none⟩

/-- The function `handlerSearch` of main.go. -/
def handlerSearch (env : Env) (w : ResponseWriter) (r : SearchRequest) : SearchOutcome :=
  searchAndWrite env (setHeaders w) (radiusQuery env r)

/-- The function `handlerSearchFace` of main.go (it parses `lat`, `lon` and `range` and
does not use them). -/
def handlerSearchFace (env : Env) (w : ResponseWriter) (_r : SearchRequest) : SearchOutcome :=
  searchAndWrite env (setHeaders w) faceQuery

/-! ## The search backend over the stored documents -/

/-- The text of a boolean in a match query. -/
def boolText (b : Bool) : String :=
  if b then "true" else "false"

/-- The boolean fields of the document schema, by name: only `face`. -/
def boolField (p : Post) (field : String) : Option Bool :=
  if field = "face" then some p.Face else none

/-- What the search backend decides on its own: the geo-distance test
`within distance centre location`, the number of hits of a page when the request names none
(the handlers name none, main.go:334 and 389) and the order it ranks matching documents
in. -/
structure SearchBackend where
  within : String → Location → Location → Bool
  pageSize : Nat
  order : List (String × Post) → List (String × Post)

/-- Whether a stored document matches a query: a geo-distance query when its location lies
within the distance of the centre, a match query when the boolean field has exactly the
value. -/
def queryMatches (backend : SearchBackend) (q : Query) (d : String × Post) : Bool :=
  match q with
  | .geoDistance _ distance lat lon => backend.within distance ⟨lat, lon⟩ d.2.Location
  | .matchQuery field value =>
    boolField d.2 field == some true && value == boolText true
      || boolField d.2 field == some false && value == boolText false

/-- Modelled from the spec: the search backend (an external service; only its client calls
are in the source) answering from the stored documents, as section 4.4 describes it:
`queryGeoRadius` finds the documents whose location lies within the radius of the centre,
`queryBooleanField` those whose field has exactly the value, and with no explicit pagination
only the backend's default page of them comes back: the matching documents, ranked in the
backend's order, cut at the page size. -/
def esSearch (backend : SearchBackend) (index : List (String × Post)) (q : Query) :
    Except Err (List Post) :=
  .ok (((backend.order (index.filter (queryMatches backend q))).take backend.pageSize).map
    (fun d => d.2))

/-- The environment `env` with the search backend answering from `index`. -/
def Env.searching (env : Env) (backend : SearchBackend) (index : List (String × Post)) :
    Env :=
  { env with searchDo := fun _ q => esSearch backend index q }

/-! ## The location invariant of the specification -/

/-- The invariant `-90 <= latitude <= 90` and `-180 <= longitude <= 180`. -/
def Location.InRange (l : Location) : Prop :=
  Float64.le (.finite (-90)) l.Lat = true ∧ Float64.le l.Lat (.finite 90) = true ∧
    Float64.le (.finite (-180)) l.Lon = true ∧ Float64.le l.Lon (.finite 180) = true

instance (l : Location) : Decidable l.InRange := by
  unfold Location.InRange
  infer_instance

/-! ## Concrete environments and requests -/

/-- The value of a string of decimal digits, `none` when another character occurs. -/
def digitsValue : List Char → Nat → Option Nat
  | [], acc => some acc
  | c :: cs, acc =>
    if c.isDigit then digitsValue cs (10 * acc + (c.toNat - '0'.toNat)) else none

/-- The function `strconv.ParseFloat(s, 64)` on the decimal integer literals (digits with an
optional minus sign) of magnitude at most 2^53, which a `float64` holds exactly. Every other
string is answered like a syntax error, `(0, err)`: this instance of `Env.parseFloat` is only
meant for such literals. -/
def parseFloatInteger (s : String) : Float64 × Option Err :=
  let syntaxError : Float64 × Option Err := (.finite 0, some "invalid syntax")
  match s.data with
  | [] => syntaxError
  | '-' :: ds =>
    match ds, digitsValue ds 0 with
    | _ :: _, some n => if n ≤ 2 ^ 53 then (.finite (-(n : ℚ)), none) else syntaxError
    | _, _ => syntaxError
  | ds =>
    match digitsValue ds 0 with
    | some n => if n ≤ 2 ^ 53 then (.finite (n : ℚ), none) else syntaxError
    | none => syntaxError

/-- An environment in which every call succeeds; the vision API finds no face and the
search finds nothing. -/
def calmEnv : Env where
  parseFloat := parseFloatInteger
  formatFloat := fun _ => "0"
  uuidNew := "6ba7b810-9dad-11d1-80b4-00c04fd430c8"
  storageNewClient := none
  bucketAttrs := fun _ => none
  ioCopy := fun _ _ _ => none
  writerClose := fun _ _ => none
  aclSet := fun _ _ => none
  objectAttrs := fun bucket key => .ok ⟨"https://storage.example/" ++ bucket ++ "/" ++ key⟩
  newImageAnnotatorClient := none
  detectFaces := fun _ => .ok []
  elasticNewClient := none
  indexDo := fun _ _ _ _ => none
  searchDo := fun _ _ => .ok []
  jsonMarshal := fun _ => none
  bigtableNewClient := fun _ _ => none
  bigtableNow := 0
  tblApply := fun _ _ _ => none

/-- The calm environment with a failing index write. -/
def indexDownEnv : Env :=
  { calmEnv with indexDo := fun _ _ _ _ => some "elastic: Error 503 (Service Unavailable)" }

/-- The calm environment with a failing row write. -/
def tableDownEnv : Env :=
  { calmEnv with tblApply := fun _ _ _ => some "rpc error: code = Unavailable" }

/-- The calm environment with a failing annotation call. -/
def visionDownEnv : Env :=
  { calmEnv with detectFaces := fun _ => .error "rpc error: code = PermissionDenied" }

/-- The calm environment with a failing `obj.Attrs` call at the end of `saveToGCS`. -/
def attrsDownEnv : Env :=
  { calmEnv with objectAttrs := fun _ _ => .error "googleapi: Error 503" }

/-- The empty stores. -/
def World.empty : World := ⟨[], [], []⟩

/-- A submission by `alice` of a small jpeg at latitude 37, longitude -122. -/
def helloRequest : PostRequest where
  message := "hello world"
  lat := "37"
  lon := "-122"
  image := .ok ([255, 216, 255], ⟨"photo.jpg"⟩)
  username := some "alice"

/-- The same submission with a denylisted message. -/
def rudeRequest : PostRequest :=
  { helloRequest with message := "this is shit" }

/-- The same submission with latitude 100. -/
def farNorthRequest : PostRequest :=
  { helloRequest with lat := "100", lon := "0" }

/-- A geo-distance test that only accepts the centre itself. -/
def samePoint (_distance : String) (centre location : Location) : Bool :=
  decide (centre = location)

/-- A backend that only accepts the centre itself, with pages of ten hits in stored order. -/
def strictBackend : SearchBackend := ⟨samePoint, 10, fun l => l⟩

/-- A backend that accepts every distance, with pages of ten hits in stored order. -/
def generousBackend : SearchBackend := ⟨fun _ _ _ => true, 10, fun l => l⟩

/-- A search at latitude 37, longitude -122 with the default range. -/
def helloSearch : SearchRequest := ⟨"37", "-122", ""⟩

/-- Two posts, the second one with a denylisted message. -/
def twoHits : List Post :=
  [ ⟨"alice", "hello world", ⟨.finite 37, .finite (-122)⟩, "u1", "image", true⟩,
    ⟨"bob", "this is shit", ⟨.finite 37, .finite (-122)⟩, "u2", "image", true⟩ ]

/-- The calm environment with a search that finds `twoHits`. -/
def twoHitsEnv : Env :=
  { calmEnv with searchDo := fun _ _ => .ok twoHits }

/-! ## The runs of the ingestion pipeline -/

/-- The order of the pipeline. -/
def pipelineOrder : List Adapter :=
  [.attachmentPut, .detectFace, .index, .writeRow]

/-- The post `p` of `handlerPost` once `Type`, `Url` and `Face` are assigned (line 220). -/
def populatedPost (env : Env) (r : PostRequest) (username : String) (header : FileHeader)
    (attrs : ObjectAttrs) (faceDetected : Bool) : Post :=
  ⟨username, r.message, ⟨(env.parseFloat r.lat).1, (env.parseFloat r.lon).1⟩, attrs.MediaLink,
    postType (filepathExt header.Filename), faceDetected⟩

/-- The eight ways through `handlerPost`, one per exit of the function, each with the
outcome it leaves. `handlerPost_run` shows that the function always takes one of them. -/
inductive PostRun (env : Env) (world : World) (w : ResponseWriter) (r : PostRequest) :
    PostOutcome → Prop where
  | noPrincipal (hu : r.username = none) :
    PostRun env world w r
      ⟨setHeaders w, world, [], some "interface conversion: interface {} is nil, not string"⟩
  | noAttachment (u : String) (err : Err) (hu : r.username = some u)
      (hi : r.image = .error err) :
    PostRun env world w r
      ⟨httpError (setHeaders w) "GCS is not setup" StatusInternalServerError, world, [],
        some err⟩
  | storePanic (u : String) (file : Bytes) (header : FileHeader) (world1 : World) (msg : Err)
      (hu : r.username = some u) (hi : r.image = .ok (file, header))
      (hg : saveToGCS env world file BucketName env.uuidNew = (world1, .panic msg)) :
    PostRun env world w r
      ⟨setHeaders w, world1, [⟨.saveToGCS file BucketName env.uuidNew, false⟩], some msg⟩
  | storeError (u : String) (file : Bytes) (header : FileHeader) (world1 : World) (err : Err)
      (hu : r.username = some u) (hi : r.image = .ok (file, header))
      (hg : saveToGCS env world file BucketName env.uuidNew = (world1, .error err)) :
    PostRun env world w r
      ⟨httpError (setHeaders w) "GCS is not setup" StatusInternalServerError, world1,
        [⟨.saveToGCS file BucketName env.uuidNew, false⟩], some err⟩
  | analysisError (u : String) (file : Bytes) (header : FileHeader) (world1 : World)
      (attrs : ObjectAttrs) (b : Bool) (err : Err)
      (hu : r.username = some u) (hi : r.image = .ok (file, header))
      (hg : saveToGCS env world file BucketName env.uuidNew = (world1, .ok attrs))
      (hd : detectFacesURI env attrs.MediaLink = (b, some err)) :
    PostRun env world w r
      ⟨httpError (setHeaders w) "Failed to annotate the image" StatusInternalServerError,
        world1,
        [⟨.saveToGCS file BucketName env.uuidNew, true⟩,
          ⟨.detectFacesURI attrs.MediaLink, false⟩], some err⟩
  | indexPanic (u : String) (file : Bytes) (header : FileHeader) (world1 : World)
      (attrs : ObjectAttrs) (face : Bool) (world2 : World) (err : Err)
      (hu : r.username = some u) (hi : r.image = .ok (file, header))
      (hg : saveToGCS env world file BucketName env.uuidNew = (world1, .ok attrs))
      (hd : detectFacesURI env attrs.MediaLink = (face, none))
      (he : saveToES env world1 (populatedPost env r u header attrs face) env.uuidNew =
        (world2, some err)) :
    PostRun env world w r
      ⟨setHeaders w, world2,
        [⟨.saveToGCS file BucketName env.uuidNew, true⟩,
          ⟨.detectFacesURI attrs.MediaLink, true⟩,
          ⟨.saveToES (populatedPost env r u header attrs face) env.uuidNew, false⟩], some err⟩
  | rowPanic (u : String) (file : Bytes) (header : FileHeader) (world1 : World)
      (attrs : ObjectAttrs) (face : Bool) (world2 world3 : World) (err : Err)
      (hu : r.username = some u) (hi : r.image = .ok (file, header))
      (hg : saveToGCS env world file BucketName env.uuidNew = (world1, .ok attrs))
      (hd : detectFacesURI env attrs.MediaLink = (face, none))
      (he : saveToES env world1 (populatedPost env r u header attrs face) env.uuidNew =
        (world2, none))
      (hb : saveToBigTable env world2 (populatedPost env r u header attrs face) env.uuidNew =
        (world3, some err)) :
    PostRun env world w r
      ⟨setHeaders w, world3,
        [⟨.saveToGCS file BucketName env.uuidNew, true⟩,
          ⟨.detectFacesURI attrs.MediaLink, true⟩,
          ⟨.saveToES (populatedPost env r u header attrs face) env.uuidNew, true⟩,
          ⟨.saveToBigTable (populatedPost env r u header attrs face) env.uuidNew, false⟩],
        some err⟩
  | complete (u : String) (file : Bytes) (header : FileHeader) (world1 : World)
      (attrs : ObjectAttrs) (face : Bool) (world2 world3 : World)
      (hu : r.username = some u) (hi : r.image = .ok (file, header))
      (hg : saveToGCS env world file BucketName env.uuidNew = (world1, .ok attrs))
      (hd : detectFacesURI env attrs.MediaLink = (face, none))
      (he : saveToES env world1 (populatedPost env r u header attrs face) env.uuidNew =
        (world2, none))
      (hb : saveToBigTable env world2 (populatedPost env r u header attrs face) env.uuidNew =
        (world3, none)) :
    PostRun env world w r
      ⟨setHeaders w, world3,
        [⟨.saveToGCS file BucketName env.uuidNew, true⟩,
          ⟨.detectFacesURI attrs.MediaLink, true⟩,
          ⟨.saveToES (populatedPost env r u header attrs face) env.uuidNew, true⟩,
          ⟨.saveToBigTable (populatedPost env r u header attrs face) env.uuidNew, true⟩],
        none⟩

/-- The stores of `world2` hold, next to what `world` holds, only entries under the key
`id` (objects: of the bucket `BucketName`). -/
def OnlyKeyAdded (id : String) (world world2 : World) : Prop :=
  (∀ o ∈ world2.objects, o ∈ world.objects ∨ o.1 = (BucketName, id)) ∧
  (∀ d ∈ world2.index, d ∈ world.index ∨ d.1 = id) ∧
  (∀ row ∈ world2.rows, row ∈ world.rows ∨ row.1 = id)

/-! ## The content filter: proofs -/

theorem hasPrefixChars_iff (s p : List Char) :
    hasPrefixChars s p = true ↔ ∃ suf, s = p ++ suf := by
  induction p generalizing s with
  | nil => simp [hasPrefixChars]
  | cons d p ih =>
    cases s with
    | nil => simp [hasPrefixChars]
    | cons c s =>
      simp only [hasPrefixChars, Bool.and_eq_true, beq_iff_eq, ih, List.cons_append,
        List.cons.injEq]
      constructor
      · rintro ⟨h, suf, hs⟩
        exact ⟨suf, h, hs⟩
      · rintro ⟨suf, h, hs⟩
        exact ⟨h, suf, hs⟩

theorem containsChars_iff (s p : List Char) :
    containsChars s p = true ↔ ∃ pre suf, s = pre ++ p ++ suf := by
  induction s with
  | nil =>
    simp only [containsChars, hasPrefixChars_iff]
    constructor
    · rintro ⟨suf, h⟩
      exact ⟨[], suf, by simpa using h⟩
    · rintro ⟨pre, suf, h⟩
      have h2 := h.symm
      simp only [List.append_eq_nil] at h2
      exact ⟨[], by simp [h2.1.2]⟩
  | cons c s ih =>
    simp only [containsChars, Bool.or_eq_true, hasPrefixChars_iff, ih]
    constructor
    · rintro (⟨suf, h⟩ | ⟨pre, suf, h⟩)
      · exact ⟨[], suf, by simpa using h⟩
      · exact ⟨c :: pre, suf, by simp [h]⟩
    · rintro ⟨pre, suf, h⟩
      cases pre with
      | nil => exact Or.inl ⟨suf, by simpa using h⟩
      | cons a pre =>
        simp only [List.cons_append, List.cons.injEq] at h
        exact Or.inr ⟨pre, suf, h.2⟩

theorem stringsContains_iff (s w : String) : stringsContains s w = true ↔ IsSubstring w s := by
  simp [stringsContains, IsSubstring, containsChars_iff]

theorem containsFilteredWords_iff (s : String) :
    containsFilteredWords s = true ↔ Denylisted s := by
  simp only [containsFilteredWords, FilteredWords, containsFilteredWordsLoop, Denylisted,
    ← stringsContains_iff]
  by_cases h1 : stringsContains s "fuck" = true
  · simp [h1]
  · by_cases h2 : stringsContains s "shit" = true
    · simp [h1, h2]
    · simp [h1, h2]

theorem foldl_appendUnlessFiltered (items acc : List Post) :
    items.foldl appendUnlessFiltered acc =
      acc ++ items.filter (fun p => !containsFilteredWords p.Message) := by
  induction items generalizing acc with
  | nil => simp
  | cons p items ih =>
    simp only [List.foldl_cons, ih, appendUnlessFiltered, List.filter_cons]
    by_cases h : containsFilteredWords p.Message = true
    · simp [h]
    · simp [h]

theorem collectPosts_eq_filter (items : List Post) :
    collectPosts items = items.filter (fun p => !containsFilteredWords p.Message) := by
  simp [collectPosts, foldl_appendUnlessFiltered]

/-- C3: `containsFilteredWords s` is true exactly when `s` contains "fuck" or "shit" as a
case-sensitive contiguous substring; it is true for "this is shit", false for "hello world"
and false for the upper-case "SHIT". -/
theorem containsFilteredWords_spec :
    (∀ s : String, containsFilteredWords s = true ↔
      (IsSubstring "fuck" s ∨ IsSubstring "shit" s)) ∧
    containsFilteredWords "this is shit" = true ∧
    containsFilteredWords "hello world" = false ∧
    containsFilteredWords "SHIT" = false :=
  ⟨fun s => containsFilteredWords_iff s, by decide, by decide, by decide⟩

/-! ## The media classification: proofs -/

/-- C4: the media kind `handlerPost` assigns for the extension `e` is "image" exactly for
.jpeg, .jpg, .gif, .png, "video" exactly for .mov, .mp4, .avi, .flv, .wmv and "unknown"
exactly for every other extension, the empty one included; .jpg gives image, .mp4 video,
.xyz unknown, and the result is always one of the three. -/
theorem postType_spec (e : String) :
    (postType e = "image" ↔ e ∈ [".jpeg", ".jpg", ".gif", ".png"]) ∧
    (postType e = "video" ↔ e ∈ [".mov", ".mp4", ".avi", ".flv", ".wmv"]) ∧
    (postType e = "unknown" ↔
      e ∉ [".jpeg", ".jpg", ".gif", ".png", ".mov", ".mp4", ".avi", ".flv", ".wmv"]) ∧
    postType "" = "unknown" ∧
    postType ".jpg" = "image" ∧ postType ".mp4" = "video" ∧ postType ".xyz" = "unknown" ∧
    postType e ∈ ["image", "video", "unknown"] := by
  refine ⟨?_, ?_, ?_, by decide, by decide, by decide, by decide, ?_⟩ <;>
  · by_cases h1 : e = ".jpeg"
    · subst h1; decide
    by_cases h2 : e = ".jpg"
    · subst h2; decide
    by_cases h3 : e = ".gif"
    · subst h3; decide
    by_cases h4 : e = ".png"
    · subst h4; decide
    by_cases h5 : e = ".mov"
    · subst h5; decide
    by_cases h6 : e = ".mp4"
    · subst h6; decide
    by_cases h7 : e = ".avi"
    · subst h7; decide
    by_cases h8 : e = ".flv"
    · subst h8; decide
    by_cases h9 : e = ".wmv"
    · subst h9; decide
    have b1 : (e == ".jpeg") = false := by simpa using h1
    have b2 : (e == ".jpg") = false := by simpa using h2
    have b3 : (e == ".gif") = false := by simpa using h3
    have b4 : (e == ".png") = false := by simpa using h4
    have b5 : (e == ".mov") = false := by simpa using h5
    have b6 : (e == ".mp4") = false := by simpa using h6
    have b7 : (e == ".avi") = false := by simpa using h7
    have b8 : (e == ".flv") = false := by simpa using h8
    have b9 : (e == ".wmv") = false := by simpa using h9
    have hu : postType e = "unknown" := by
      simp only [postType, mediaTypeLookup, mediaType, List.lookup, b1, b2, b3, b4, b5, b6, b7,
        b8, b9]
    simp [hu, h1, h2, h3, h4, h5, h6, h7, h8, h9]

/-! ## The search handlers: proofs -/

/-- C2: when the search backend returns the posts `hits`, the slice `handlerSearch`
(`face = false`) and `handlerSearchFace` (`face = true`) write is exactly `hits` with the
posts whose message contains a denylisted word removed: the backend's order is kept, no post
with a denylisted substring is in it and every post without one is, unchanged. -/
theorem search_handlers_filter (env : Env) (w : ResponseWriter) (r : SearchRequest)
    (face : Bool) (hits : List Post)
    (hclient : env.elasticNewClient = none)
    (hsearch : env.searchDo INDEX (if face then faceQuery else radiusQuery env r) = .ok hits)
    (hmarshal : env.jsonMarshal (collectPosts hits) = none) :
    ∃ keep : Post → Bool, (∀ p, keep p = true ↔ ¬ Denylisted p.Message) ∧
      (if face then handlerSearchFace env w r else handlerSearch env w r) =
        ⟨(setHeaders w).Write (.json (hits.filter keep)), none⟩ ∧
      List.Sublist (hits.filter keep) hits ∧
      (∀ p ∈ hits.filter keep, ¬ Denylisted p.Message) ∧
      (∀ p ∈ hits, ¬ Denylisted p.Message → p ∈ hits.filter keep) := by
  refine ⟨fun p => !containsFilteredWords p.Message, ?_, ?_, List.filter_sublist _, ?_, ?_⟩
  · intro p
    simp [← containsFilteredWords_iff]
  · rw [collectPosts_eq_filter] at hmarshal
    cases face
    · simp only [Bool.false_eq_true, if_false] at hsearch ⊢
      simp [handlerSearch, searchAndWrite, hclient, hsearch, hmarshal, collectPosts_eq_filter]
    · simp only [if_true] at hsearch ⊢
      simp [handlerSearchFace, searchAndWrite, hclient, hsearch, hmarshal,
        collectPosts_eq_filter]
  · intro p hp
    have h := (List.mem_filter.mp hp).2
    simpa [← containsFilteredWords_iff] using h
  · intro p hp hd
    refine List.mem_filter.mpr ⟨hp, ?_⟩
    simpa [← containsFilteredWords_iff] using hd

/-- At the search that finds `twoHits`, `handlerSearch` writes the first post only. -/
theorem search_handlers_filter_witness :
    ∃ keep : Post → Bool, (∀ p, keep p = true ↔ ¬ Denylisted p.Message) ∧
      (if false then handlerSearchFace twoHitsEnv ResponseWriter.new helloSearch
        else handlerSearch twoHitsEnv ResponseWriter.new helloSearch) =
        ⟨(setHeaders ResponseWriter.new).Write (.json (twoHits.filter keep)), none⟩ ∧
      List.Sublist (twoHits.filter keep) twoHits ∧
      (∀ p ∈ twoHits.filter keep, ¬ Denylisted p.Message) ∧
      (∀ p ∈ twoHits, ¬ Denylisted p.Message → p ∈ twoHits.filter keep) :=
  search_handlers_filter twoHitsEnv ResponseWriter.new helloSearch false twoHits
    rfl rfl rfl

/-! ## The ingestion pipeline: proofs -/

theorem handlerPost_run (env : Env) (world : World) (w : ResponseWriter) (r : PostRequest) :
    PostRun env world w r (handlerPost env world w r) := by
  unfold handlerPost
  simp only []
  split
  · next hu => exact .noPrincipal hu
  · next u hu =>
    split
    · next err hi => exact .noAttachment u err hu hi
    · next file header hi =>
      split
      · next world1 msg hg => exact .storePanic u file header world1 msg hu hi hg
      · next world1 err hg => exact .storeError u file header world1 err hu hi hg
      · next world1 attrs hg =>
        split
        · next b err hd => exact .analysisError u file header world1 attrs b err hu hi hg hd
        · next face hd =>
          split
          · next world2 err he =>
            exact .indexPanic u file header world1 attrs face world2 err hu hi hg hd he
          · next world2 he =>
            split
            · next world3 err hb =>
              exact .rowPanic u file header world1 attrs face world2 world3 err hu hi hg hd he hb
            · next world3 hb =>
              exact .complete u file header world1 attrs face world2 world3 hu hi hg hd he hb

/-- C1: the adapter calls of `handlerPost` are a prefix of attachment put, detect face,
index, write row (so each adapter is called at most once, in that order); every call but the
last one succeeded (none is called after one that fails); and when the submission carries a
principal and an attachment and every call made succeeds, all four are called and the
handler returns normally. -/
theorem handlerPost_calls_in_order (env : Env) (world : World) (w : ResponseWriter)
    (r : PostRequest) :
    List.IsPrefix ((handlerPost env world w r).calls.map (fun e => e.call.adapter))
      pipelineOrder ∧
    (∀ e ∈ (handlerPost env world w r).calls.dropLast, e.ok = true) ∧
    ((∃ u, r.username = some u) → (∃ f, r.image = .ok f) →
      (∀ e ∈ (handlerPost env world w r).calls, e.ok = true) →
      (handlerPost env world w r).calls.map (fun e => e.call.adapter) = pipelineOrder ∧
        (handlerPost env world w r).panicked = none) := by
  have h := handlerPost_run env world w r
  generalize handlerPost env world w r = out at h ⊢
  cases h
  case noPrincipal hu => simp [hu, pipelineOrder]
  case noAttachment u err hu hi => simp [hi, pipelineOrder]
  case storePanic => simp [pipelineOrder, Call.adapter]
  case storeError => simp [pipelineOrder, Call.adapter]
  case analysisError => simp [pipelineOrder, Call.adapter]
  case indexPanic => simp [pipelineOrder, Call.adapter]
  case rowPanic => simp [pipelineOrder, Call.adapter]
  case complete => simp [pipelineOrder, Call.adapter]

/-- The submission of "hello world" with everything succeeding: the four adapters are
called, once each and in order, and the handler returns. -/
theorem handlerPost_calls_in_order_witness :
    (handlerPost calmEnv World.empty ResponseWriter.new helloRequest).calls.map
        (fun e => e.call.adapter) = pipelineOrder ∧
      (handlerPost calmEnv World.empty ResponseWriter.new helloRequest).panicked = none :=
  (handlerPost_calls_in_order calmEnv World.empty ResponseWriter.new helloRequest).2.2
    ⟨"alice", rfl⟩ ⟨_, rfl⟩ (by decide)

/-! ## What the adapters do to the stores -/

theorem saveToGCS_world (env : Env) (world : World) (file : Bytes) (name id : String) :
    (saveToGCS env world file name id).1 = world ∨
      (saveToGCS env world file name id).1 =
        { world with objects := putObject world.objects name id file } := by
  unfold saveToGCS
  repeat' split
  all_goals simp

theorem saveToES_ok (env : Env) (world world2 : World) (p : Post) (id : String)
    (h : saveToES env world p id = (world2, none)) :
    world2 = { world with index := putDocument world.index id p } := by
  unfold saveToES at h
  split at h
  · simp at h
  · split at h
    · simp at h
    · simpa using h.symm

theorem saveToES_err (env : Env) (world world2 : World) (p : Post) (id : String) (err : Err)
    (h : saveToES env world p id = (world2, some err)) : world2 = world := by
  unfold saveToES at h
  split at h
  · simp only [Prod.mk.injEq] at h
    exact h.1.symm
  · split at h
    · simp only [Prod.mk.injEq] at h
      exact h.1.symm
    · simp at h

theorem saveToBigTable_ok (env : Env) (world world3 : World) (p : Post) (id : String)
    (h : saveToBigTable env world p id = (world3, none)) :
    world3 = { world with rows := world.rows ++ [(id, postMutation env p)] } := by
  unfold saveToBigTable at h
  split at h
  · simp at h
  · simp only [] at h
    split at h
    · simp at h
    · simpa using h.symm

theorem saveToBigTable_err (env : Env) (world world3 : World) (p : Post) (id : String)
    (err : Err) (h : saveToBigTable env world p id = (world3, some err)) : world3 = world := by
  unfold saveToBigTable at h
  split at h
  · simp only [Prod.mk.injEq] at h
    exact h.1.symm
  · simp only [] at h
    split at h
    · simp only [Prod.mk.injEq] at h
      exact h.1.symm
    · simp at h

theorem saveToGCS_index (env : Env) (world world1 : World) (file : Bytes) (name id : String)
    (g : GcsResult) (h : saveToGCS env world file name id = (world1, g)) :
    world1.index = world.index ∧ world1.rows = world.rows := by
  have h1 : world1 = (saveToGCS env world file name id).1 := by rw [h]
  rcases saveToGCS_world env world file name id with h2 | h2 <;> simp [h1, h2]

theorem detectFacesURI_ok (env : Env) (file : String) (face : Bool)
    (h : detectFacesURI env file = (face, none)) : face = true := by
  unfold detectFacesURI at h
  split at h
  · simp at h
  · split at h
    · simp at h
    · simp only [Prod.mk.injEq] at h
      exact h.1.symm

/-- C5: when the principal and the attachment are there, `saveToGCS` returns `attrs` and
`detectFacesURI` returns `face`, the third adapter call of `handlerPost` is `saveToES` with
the post whose user is the principal, whose message is the submitted one verbatim, whose
location is the parsed pair of form values, whose url is the returned media link, whose type
is the classification of the file name and whose face flag is the analyzer's answer, under
the generated identifier; the call succeeds exactly when `saveToES` does not panic, and then
the index holds exactly this document under the identifier. -/
theorem handlerPost_indexes_populated_post (env : Env) (world : World) (w : ResponseWriter)
    (r : PostRequest) (u : String) (file : Bytes) (header : FileHeader) (world1 : World)
    (attrs : ObjectAttrs) (face : Bool)
    (hu : r.username = some u) (hi : r.image = .ok (file, header))
    (hg : saveToGCS env world file BucketName env.uuidNew = (world1, .ok attrs))
    (hd : detectFacesURI env attrs.MediaLink = (face, none)) :
    ∃ doc : Post,
      doc.User = u ∧ doc.Message = r.message ∧
      doc.Location = ⟨(env.parseFloat r.lat).1, (env.parseFloat r.lon).1⟩ ∧
      doc.Url = attrs.MediaLink ∧ doc.Type_ = postType (filepathExt header.Filename) ∧
      doc.Face = face ∧
      (handlerPost env world w r).calls.get? 2 =
        some ⟨.saveToES doc env.uuidNew,
          decide ((saveToES env world1 doc env.uuidNew).2 = none)⟩ ∧
      ((saveToES env world1 doc env.uuidNew).2 = none →
        (handlerPost env world w r).world.index =
          putDocument world.index env.uuidNew doc) := by
  refine ⟨populatedPost env r u header attrs face, rfl, rfl, rfl, rfl, rfl, rfl, ?_⟩
  have h := handlerPost_run env world w r
  generalize handlerPost env world w r = out at h ⊢
  cases h
  case noPrincipal hu2 => simp [hu] at hu2
  case noAttachment hu2 hi2 => simp [hi] at hi2
  case storePanic hu2 hi2 hg2 =>
    rw [hi] at hi2
    simp only [Except.ok.injEq, Prod.mk.injEq] at hi2
    obtain ⟨rfl, rfl⟩ := hi2
    simp [hg] at hg2
  case storeError hu2 hi2 hg2 =>
    rw [hi] at hi2
    simp only [Except.ok.injEq, Prod.mk.injEq] at hi2
    obtain ⟨rfl, rfl⟩ := hi2
    simp [hg] at hg2
  case analysisError hu2 hi2 hg2 hd2 =>
    rw [hi] at hi2
    simp only [Except.ok.injEq, Prod.mk.injEq] at hi2
    obtain ⟨rfl, rfl⟩ := hi2
    rw [hg] at hg2
    simp only [Prod.mk.injEq, GcsResult.ok.injEq] at hg2
    obtain ⟨rfl, rfl⟩ := hg2
    simp [hd] at hd2
  case indexPanic u2 file2 header2 world1b attrs2 face2 world2 err hu2 hi2 hg2 hd2 he =>
    rw [hu] at hu2
    obtain rfl := Option.some.inj hu2
    rw [hi] at hi2
    simp only [Except.ok.injEq, Prod.mk.injEq] at hi2
    obtain ⟨rfl, rfl⟩ := hi2
    rw [hg] at hg2
    simp only [Prod.mk.injEq, GcsResult.ok.injEq] at hg2
    obtain ⟨rfl, rfl⟩ := hg2
    rw [hd] at hd2
    simp only [Prod.mk.injEq, and_true] at hd2
    obtain rfl := hd2
    simp [he]
  case rowPanic u2 file2 header2 world1b attrs2 face2 world2 world3 err hu2 hi2 hg2 hd2 he hb =>
    rw [hu] at hu2
    obtain rfl := Option.some.inj hu2
    rw [hi] at hi2
    simp only [Except.ok.injEq, Prod.mk.injEq] at hi2
    obtain ⟨rfl, rfl⟩ := hi2
    rw [hg] at hg2
    simp only [Prod.mk.injEq, GcsResult.ok.injEq] at hg2
    obtain ⟨rfl, rfl⟩ := hg2
    rw [hd] at hd2
    simp only [Prod.mk.injEq, and_true] at hd2
    obtain rfl := hd2
    have e3 := saveToBigTable_err _ _ _ _ _ _ hb
    have e2 := saveToES_ok _ _ _ _ _ he
    have e1 := (saveToGCS_index _ _ _ _ _ _ _ hg).1
    simp [he, e3, e2, e1]
  case complete u2 file2 header2 world1b attrs2 face2 world2 world3 hu2 hi2 hg2 hd2 he hb =>
    rw [hu] at hu2
    obtain rfl := Option.some.inj hu2
    rw [hi] at hi2
    simp only [Except.ok.injEq, Prod.mk.injEq] at hi2
    obtain ⟨rfl, rfl⟩ := hi2
    rw [hg] at hg2
    simp only [Prod.mk.injEq, GcsResult.ok.injEq] at hg2
    obtain ⟨rfl, rfl⟩ := hg2
    rw [hd] at hd2
    simp only [Prod.mk.injEq, and_true] at hd2
    obtain rfl := hd2
    have e3 := saveToBigTable_ok _ _ _ _ _ hb
    have e2 := saveToES_ok _ _ _ _ _ he
    have e1 := (saveToGCS_index _ _ _ _ _ _ _ hg).1
    simp [he, e3, e2, e1]

/-- The submission with the denylisted message, everything succeeding: the document indexed
carries the message verbatim. -/
theorem handlerPost_indexes_populated_post_witness :
    ∃ doc : Post,
      doc.User = "alice" ∧ doc.Message = "this is shit" ∧
      doc.Location = ⟨(calmEnv.parseFloat "37").1, (calmEnv.parseFloat "-122").1⟩ ∧
      doc.Url = "https://storage.example/post-images-286400/6ba7b810-9dad-11d1-80b4-00c04fd430c8" ∧
      doc.Type_ = postType (filepathExt "photo.jpg") ∧
      doc.Face = true ∧
      (handlerPost calmEnv World.empty ResponseWriter.new rudeRequest).calls.get? 2 =
        some ⟨.saveToES doc calmEnv.uuidNew,
          decide ((saveToES calmEnv
            ⟨[(("post-images-286400", "6ba7b810-9dad-11d1-80b4-00c04fd430c8"), [255, 216, 255])],
              [], []⟩ doc calmEnv.uuidNew).2 = none)⟩ ∧
      ((saveToES calmEnv
          ⟨[(("post-images-286400", "6ba7b810-9dad-11d1-80b4-00c04fd430c8"), [255, 216, 255])],
            [], []⟩ doc calmEnv.uuidNew).2 = none →
        (handlerPost calmEnv World.empty ResponseWriter.new rudeRequest).world.index =
          putDocument World.empty.index calmEnv.uuidNew doc) :=
  handlerPost_indexes_populated_post calmEnv World.empty ResponseWriter.new rudeRequest
    "alice" [255, 216, 255] ⟨"photo.jpg"⟩
    ⟨[(("post-images-286400", "6ba7b810-9dad-11d1-80b4-00c04fd430c8"), [255, 216, 255])],
      [], []⟩
    ⟨"https://storage.example/post-images-286400/6ba7b810-9dad-11d1-80b4-00c04fd430c8"⟩ true
    rfl rfl (by decide) (by decide)

theorem saveToGCS_ok (env : Env) (world world1 : World) (file : Bytes) (name id : String)
    (attrs : ObjectAttrs) (h : saveToGCS env world file name id = (world1, .ok attrs)) :
    world1 = { world with objects := putObject world.objects name id file } := by
  unfold saveToGCS at h
  repeat' split at h
  all_goals simp_all

theorem mem_putObject (objects : List ((String × String) × Bytes)) (bucket key : String)
    (content : Bytes) (o : (String × String) × Bytes)
    (h : o ∈ putObject objects bucket key content) : o ∈ objects ∨ o.1 = (bucket, key) := by
  simp only [putObject, List.mem_append, List.mem_filter, List.mem_singleton] at h
  rcases h with h | h
  · exact Or.inl h.1
  · exact Or.inr (by rw [h])

theorem mem_putDocument (index : List (String × Post)) (id : String) (p : Post)
    (d : String × Post) (h : d ∈ putDocument index id p) : d ∈ index ∨ d.1 = id := by
  simp only [putDocument, List.mem_append, List.mem_filter, List.mem_singleton] at h
  rcases h with h | h
  · exact Or.inl h.1
  · exact Or.inr (by rw [h])

theorem saveToGCS_objects (env : Env) (world world1 : World) (file : Bytes) (name id : String)
    (g : GcsResult) (h : saveToGCS env world file name id = (world1, g)) :
    ∀ o ∈ world1.objects, o ∈ world.objects ∨ o.1 = (name, id) := by
  have h1 : world1 = (saveToGCS env world file name id).1 := by rw [h]
  intro o ho
  rcases saveToGCS_world env world file name id with h2 | h2
  · rw [h1, h2] at ho
    exact Or.inl ho
  · rw [h1, h2] at ho
    exact mem_putObject _ _ _ _ _ ho

theorem onlyKeyAdded_refl (id : String) (world : World) : OnlyKeyAdded id world world :=
  ⟨fun _ h => Or.inl h, fun _ h => Or.inl h, fun _ h => Or.inl h⟩

theorem onlyKeyAdded_saveToGCS (env : Env) (world world1 : World) (file : Bytes)
    (id : String) (g : GcsResult)
    (h : saveToGCS env world file BucketName id = (world1, g)) :
    OnlyKeyAdded id world world1 := by
  have hi := saveToGCS_index _ _ _ _ _ _ _ h
  refine ⟨saveToGCS_objects _ _ _ _ _ _ _ h, ?_, ?_⟩
  · intro d hd
    rw [hi.1] at hd
    exact Or.inl hd
  · intro row hrow
    rw [hi.2] at hrow
    exact Or.inl hrow

theorem onlyKeyAdded_saveToES (env : Env) (world world1 world2 : World) (p : Post)
    (id : String) (x : Option Err) (h : saveToES env world1 p id = (world2, x))
    (h1 : OnlyKeyAdded id world world1) : OnlyKeyAdded id world world2 := by
  cases x with
  | some err =>
    rw [saveToES_err _ _ _ _ _ _ h]
    exact h1
  | none =>
    rw [saveToES_ok _ _ _ _ _ h]
    refine ⟨h1.1, ?_, h1.2.2⟩
    intro d hd
    rcases mem_putDocument _ _ _ _ hd with h2 | h2
    · exact h1.2.1 d h2
    · exact Or.inr h2

theorem onlyKeyAdded_saveToBigTable (env : Env) (world world2 world3 : World) (p : Post)
    (id : String) (x : Option Err) (h : saveToBigTable env world2 p id = (world3, x))
    (h2 : OnlyKeyAdded id world world2) : OnlyKeyAdded id world world3 := by
  cases x with
  | some err =>
    rw [saveToBigTable_err _ _ _ _ _ _ h]
    exact h2
  | none =>
    rw [saveToBigTable_ok _ _ _ _ _ h]
    refine ⟨h2.1, h2.2.1, ?_⟩
    intro row hrow
    simp only [List.mem_append, List.mem_singleton] at hrow
    rcases hrow with h3 | h3
    · exact h2.2.2 row h3
    · exact Or.inr (by rw [h3])

/-- C6: every adapter call of `handlerPost` that takes a key is given the identifier
generated for the submission; whatever the run adds to the blob store, the index and the
table is stored under that identifier; and after a complete run the object, the document and
the row of that identifier are there. -/
theorem handlerPost_single_key (env : Env) (world : World) (w : ResponseWriter)
    (r : PostRequest) :
    (∀ e ∈ (handlerPost env world w r).calls, ∀ k, e.call.key = some k → k = env.uuidNew) ∧
    OnlyKeyAdded env.uuidNew world (handlerPost env world w r).world ∧
    ((handlerPost env world w r).panicked = none →
      (∃ content, ((BucketName, env.uuidNew), content) ∈
        (handlerPost env world w r).world.objects) ∧
      (∃ doc, (env.uuidNew, doc) ∈ (handlerPost env world w r).world.index) ∧
      (∃ cells, (env.uuidNew, cells) ∈ (handlerPost env world w r).world.rows)) := by
  have h := handlerPost_run env world w r
  generalize handlerPost env world w r = out at h ⊢
  cases h
  case noPrincipal => simp [onlyKeyAdded_refl]
  case noAttachment => simp [onlyKeyAdded_refl]
  case storePanic hu hi hg => simp [Call.key, onlyKeyAdded_saveToGCS _ _ _ _ _ _ hg]
  case storeError hu hi hg => simp [Call.key, onlyKeyAdded_saveToGCS _ _ _ _ _ _ hg]
  case analysisError hu hi hg hd => simp [Call.key, onlyKeyAdded_saveToGCS _ _ _ _ _ _ hg]
  case indexPanic hu hi hg hd he =>
    simp [Call.key,
      onlyKeyAdded_saveToES _ _ _ _ _ _ _ he (onlyKeyAdded_saveToGCS _ _ _ _ _ _ hg)]
  case rowPanic hu hi hg hd he hb =>
    simp [Call.key,
      onlyKeyAdded_saveToBigTable _ _ _ _ _ _ _ hb
        (onlyKeyAdded_saveToES _ _ _ _ _ _ _ he (onlyKeyAdded_saveToGCS _ _ _ _ _ _ hg))]
  case complete u file header world1 attrs face world2 world3 hu hi hg hd he hb =>
    have e3 := saveToBigTable_ok _ _ _ _ _ hb
    have e2 := saveToES_ok _ _ _ _ _ he
    have e1 := saveToGCS_ok _ _ _ _ _ _ _ hg
    refine ⟨by simp [Call.key],
      onlyKeyAdded_saveToBigTable _ _ _ _ _ _ _ hb
        (onlyKeyAdded_saveToES _ _ _ _ _ _ _ he (onlyKeyAdded_saveToGCS _ _ _ _ _ _ hg)),
      fun _ => ⟨⟨file, ?_⟩, ⟨populatedPost env r u header attrs face, ?_⟩,
        ⟨postMutation env (populatedPost env r u header attrs face), ?_⟩⟩⟩
    · simp [e3, e2, e1, putObject]
    · simp [e3, e2, putDocument]
    · simp [e3]

/-! ## The content analyzer: proofs -/

/-- C8: `detectFacesURI` returns `(true, nil)` whenever the client is created and the
annotation call succeeds, whatever the list of annotations (the empty list included), and
`(false, err)` whenever the client creation or the annotation call fails with `err`; two
runs that differ only in the annotations returned give the same boolean. -/
theorem detectFacesURI_spec (env : Env) (file : String) :
    (∀ annotations, env.newImageAnnotatorClient = none →
      env.detectFaces file = .ok annotations → detectFacesURI env file = (true, none)) ∧
    (env.newImageAnnotatorClient = none → env.detectFaces file = .ok [] →
      detectFacesURI env file = (true, none)) ∧
    (∀ err, env.newImageAnnotatorClient = some err →
      detectFacesURI env file = (false, some err)) ∧
    (∀ err, env.newImageAnnotatorClient = none → env.detectFaces file = .error err →
      detectFacesURI env file = (false, some err)) ∧
    (∀ annotations annotations2, env.detectFaces file = .ok annotations →
      (detectFacesURI { env with detectFaces := fun _ => .ok annotations2 } file).1 =
        (detectFacesURI env file).1) := by
  refine ⟨?_, ?_, ?_, ?_, ?_⟩
  · intro annotations hc hd
    simp [detectFacesURI, hc, hd]
  · intro hc hd
    simp [detectFacesURI, hc, hd]
  · intro err hc
    simp [detectFacesURI, hc]
  · intro err hc hd
    simp [detectFacesURI, hc, hd]
  · intro annotations annotations2 hd
    cases hc : env.newImageAnnotatorClient <;> simp [detectFacesURI, hc, hd]

/-! ## The response status: proofs -/

/-- C9 (the code departs from it): with the attachment stored and analysed, a failing index
write makes `handlerPost` panic inside `saveToES` with no status set on the response, and so
does a failing row write inside `saveToBigTable` and a failing `obj.Attrs` at the end of
`saveToGCS`; a failing annotation call, by contrast, sets 500 before the panic, and a
complete run sets no status. -/
theorem handlerPost_store_failure_sets_no_status :
    (handlerPost indexDownEnv World.empty ResponseWriter.new helloRequest).panicked =
      some "elastic: Error 503 (Service Unavailable)" ∧
    (handlerPost indexDownEnv World.empty ResponseWriter.new helloRequest).w.status = none ∧
    (handlerPost indexDownEnv World.empty ResponseWriter.new helloRequest).w.body = [] ∧
    (handlerPost tableDownEnv World.empty ResponseWriter.new helloRequest).panicked =
      some "rpc error: code = Unavailable" ∧
    (handlerPost tableDownEnv World.empty ResponseWriter.new helloRequest).w.status = none ∧
    (handlerPost attrsDownEnv World.empty ResponseWriter.new helloRequest).panicked =
      some "invalid memory address or nil pointer dereference" ∧
    (handlerPost attrsDownEnv World.empty ResponseWriter.new helloRequest).w.status = none ∧
    (handlerPost visionDownEnv World.empty ResponseWriter.new helloRequest).w.status =
      some 500 ∧
    (handlerPost calmEnv World.empty ResponseWriter.new helloRequest).panicked = none ∧
    (handlerPost calmEnv World.empty ResponseWriter.new helloRequest).w.status = none ∧
    (handlerPost calmEnv World.empty ResponseWriter.new helloRequest).w.statusCode = 200 := by
  decide

/-! ## The location of a post: proofs -/

/-- C10 as stated fails: for the form values lat = "100", lon = "0" the post handed to
`saveToES` (whether the index write then succeeds or fails) and to `saveToBigTable` has
latitude 100, outside the invariant. -/
theorem handlerPost_location_out_of_range :
    (handlerPost calmEnv World.empty ResponseWriter.new farNorthRequest).calls.map
        (fun e => e.call.post.map (fun p => (p.Location, decide p.Location.InRange))) =
      [none, none, some (⟨.finite 100, .finite 0⟩, false),
        some (⟨.finite 100, .finite 0⟩, false)] ∧
    (handlerPost indexDownEnv World.empty ResponseWriter.new farNorthRequest).calls.map
        (fun e => e.call.post.map (fun p => (p.Location, decide p.Location.InRange))) =
      [none, none, some (⟨.finite 100, .finite 0⟩, false)] ∧
    ¬ (∀ e ∈ (handlerPost indexDownEnv World.empty ResponseWriter.new farNorthRequest).calls,
      ∀ p, e.call.post = some p → p.Location.InRange) := by
  refine ⟨by decide, by decide, ?_⟩
  intro h
  have h3 := h
    ⟨.saveToES ⟨"alice", "hello world", ⟨.finite 100, .finite 0⟩,
      "https://storage.example/post-images-286400/6ba7b810-9dad-11d1-80b4-00c04fd430c8",
      "image", true⟩ "6ba7b810-9dad-11d1-80b4-00c04fd430c8", false⟩ (by decide) _ rfl
  exact absurd h3 (by decide)

/-- C10, amended: every post `handlerPost` hands to `saveToES` or `saveToBigTable` has as
location exactly the pair parsed from the lat and lon form values, whatever that pair is
(there is no range check); so it satisfies the location invariant exactly when that parsed
pair does. -/
theorem handlerPost_location_as_parsed (env : Env) (world : World) (w : ResponseWriter)
    (r : PostRequest) :
    (∀ e ∈ (handlerPost env world w r).calls, ∀ p, e.call.post = some p →
      p.Location = ⟨(env.parseFloat r.lat).1, (env.parseFloat r.lon).1⟩) ∧
    (∀ e ∈ (handlerPost env world w r).calls, ∀ p, e.call.post = some p →
      (p.Location.InRange ↔
        Location.InRange ⟨(env.parseFloat r.lat).1, (env.parseFloat r.lon).1⟩)) ∧
    (∀ e ∈ (handlerPost env world w r).calls,
      e.call.adapter = .index ∨ e.call.adapter = .writeRow → ∃ p, e.call.post = some p) := by
  have h := handlerPost_run env world w r
  generalize handlerPost env world w r = out at h ⊢
  cases h <;> simp [Call.post, Call.adapter, populatedPost]

/-- The submission at latitude 37, longitude -122: both posts handed on are in range; the
one at latitude 100: neither is. -/
theorem handlerPost_location_as_parsed_witness :
    (∀ e ∈ (handlerPost calmEnv World.empty ResponseWriter.new helloRequest).calls,
      ∀ p, e.call.post = some p →
        p.Location = ⟨.finite 37, .finite (-122)⟩ ∧ p.Location.InRange) ∧
    (∀ e ∈ (handlerPost calmEnv World.empty ResponseWriter.new farNorthRequest).calls,
      ∀ p, e.call.post = some p →
        p.Location = ⟨.finite 100, .finite 0⟩ ∧ ¬ p.Location.InRange) := by
  have h1 := handlerPost_location_as_parsed calmEnv World.empty ResponseWriter.new helloRequest
  have h2 :=
    handlerPost_location_as_parsed calmEnv World.empty ResponseWriter.new farNorthRequest
  refine ⟨fun e he p hp => ⟨h1.1 e he p hp, (h1.2.1 e he p hp).mpr (by decide)⟩,
    fun e he p hp => ⟨h2.1 e he p hp, fun hin => ?_⟩⟩
  exact absurd ((h2.2.1 e he p hp).mp hin) (by decide)

/-! ## A failing row write after the index write: proofs -/

theorem searchAndWrite_returns (env : Env) (w : ResponseWriter) (q : Query)
    (h : (searchAndWrite env w q).panicked = none) :
    ∃ hits, env.searchDo INDEX q = .ok hits ∧
      searchAndWrite env w q = ⟨w.Write (.json (collectPosts hits)), none⟩ := by
  unfold searchAndWrite at h ⊢
  cases hc : env.elasticNewClient with
  | some err => simp [hc] at h
  | none =>
    cases hs : env.searchDo INDEX q with
    | error err => simp [hc, hs] at h
    | ok hits =>
      cases hm : env.jsonMarshal (collectPosts hits) with
      | some err => simp [hc, hs, hm] at h
      | none => exact ⟨hits, rfl, by simp [hm]⟩

theorem putDocument_spec (index : List (String × Post)) (id : String) (p : Post) :
    (id, p) ∈ putDocument index id p ∧
      ∀ d ∈ putDocument index id p, d.1 = id → d.2 = p := by
  refine ⟨by simp [putDocument], ?_⟩
  intro d hd hid
  simp only [putDocument, List.mem_append, List.mem_filter, List.mem_singleton] at hd
  rcases hd with hd | hd
  · simp [hid] at hd
  · rw [hd]

theorem mem_collectPosts (hits : List Post) (p : Post) (hp : p ∈ hits)
    (hclean : ¬ Denylisted p.Message) : p ∈ collectPosts hits := by
  rw [collectPosts_eq_filter]
  refine List.mem_filter.mpr ⟨hp, ?_⟩
  simpa [← containsFilteredWords_iff] using hclean

theorem not_mem_collectPosts (hits : List Post) (p : Post)
    (hdeny : Denylisted p.Message) : p ∉ collectPosts hits := by
  rw [collectPosts_eq_filter]
  intro hp
  have h := (List.mem_filter.mp hp).2
  have h2 := (containsFilteredWords_iff p.Message).mpr hdeny
  simp [h2] at h

theorem mem_esSearch (backend : SearchBackend) (index : List (String × Post)) (q : Query)
    (d : String × Post) (hits : List Post)
    (horder : ∀ l, (backend.order l).Perm l)
    (hpage : (index.filter (queryMatches backend q)).length ≤ backend.pageSize)
    (hd : d ∈ index) (hq : queryMatches backend q d = true)
    (hs : esSearch backend index q = .ok hits) : d.2 ∈ hits := by
  simp only [esSearch, Except.ok.injEq] at hs
  rw [← hs]
  have hlen : (backend.order (index.filter (queryMatches backend q))).length ≤
      backend.pageSize := by
    rw [(horder _).length_eq]
    exact hpage
  rw [List.take_of_length_le hlen]
  refine List.mem_map.mpr ⟨d, ?_, rfl⟩
  exact (horder _).mem_iff.mpr (List.mem_filter.mpr ⟨hd, hq⟩)

/-- C7, amended: when the attachment store, the analyzer and the index write succeed and the
row write fails, `handlerPost` ends in a panic and the index still holds the post's document
under its identifier, whatever its message (nothing removes it). Over that index, a search
handler that returns normally writes a slice without the post when its message contains a
denylisted word; when it contains none and the documents matching the query fit into the
backend's page, the slice of `handlerSearch` centred on the post's location (the backend
accepting distance zero) and the slice of `handlerSearchFace` contain the post. -/
theorem indexed_post_survives_row_failure (env : Env) (world : World) (w : ResponseWriter)
    (r : PostRequest)
    (hlog : (handlerPost env world w r).calls.map (fun e => (e.call.adapter, e.ok)) =
      [(.attachmentPut, true), (.detectFace, true), (.index, true), (.writeRow, false)]) :
    ∃ (doc : Post) (err : Err),
      (handlerPost env world w r).panicked = some err ∧
      (env.uuidNew, doc) ∈ (handlerPost env world w r).world.index ∧
      (∀ d ∈ (handlerPost env world w r).world.index, d.1 = env.uuidNew → d.2 = doc) ∧
      doc.Message = r.message ∧
      doc.Location = ⟨(env.parseFloat r.lat).1, (env.parseFloat r.lon).1⟩ ∧
      doc.Face = true ∧
      ∀ (senv : Env) (sw : ResponseWriter) (sr : SearchRequest) (backend : SearchBackend),
        (Denylisted r.message →
          ((handlerSearch (senv.searching backend (handlerPost env world w r).world.index)
              sw sr).panicked = none →
            ∃ ps, (handlerSearch
              (senv.searching backend (handlerPost env world w r).world.index) sw sr).w =
                (setHeaders sw).Write (.json ps) ∧ doc ∉ ps) ∧
          ((handlerSearchFace (senv.searching backend (handlerPost env world w r).world.index)
              sw sr).panicked = none →
            ∃ ps, (handlerSearchFace
              (senv.searching backend (handlerPost env world w r).world.index) sw sr).w =
                (setHeaders sw).Write (.json ps) ∧ doc ∉ ps)) ∧
        (¬ Denylisted r.message → (∀ l, (backend.order l).Perm l) →
          ((senv.parseFloat sr.lat).1 = (env.parseFloat r.lat).1 →
            (senv.parseFloat sr.lon).1 = (env.parseFloat r.lon).1 →
            backend.within (searchRange sr) doc.Location doc.Location = true →
            ((handlerPost env world w r).world.index.filter
              (queryMatches backend (radiusQuery senv sr))).length ≤ backend.pageSize →
            (handlerSearch (senv.searching backend (handlerPost env world w r).world.index)
              sw sr).panicked = none →
            ∃ ps, (handlerSearch
              (senv.searching backend (handlerPost env world w r).world.index) sw sr).w =
                (setHeaders sw).Write (.json ps) ∧ doc ∈ ps) ∧
          (((handlerPost env world w r).world.index.filter
              (queryMatches backend faceQuery)).length ≤ backend.pageSize →
            (handlerSearchFace (senv.searching backend (handlerPost env world w r).world.index)
              sw sr).panicked = none →
            ∃ ps, (handlerSearchFace
              (senv.searching backend (handlerPost env world w r).world.index) sw sr).w =
                (setHeaders sw).Write (.json ps) ∧ doc ∈ ps)) := by
  have h := handlerPost_run env world w r
  generalize handlerPost env world w r = out at h hlog ⊢
  cases h
  case noPrincipal => simp at hlog
  case noAttachment => simp at hlog
  case storePanic => simp at hlog
  case storeError => simp at hlog
  case analysisError => simp at hlog
  case indexPanic => simp at hlog
  case complete => simp [Call.adapter] at hlog
  case rowPanic u file header world1 attrs face world2 world3 err hu hi hg hd he hb =>
    have e3 := saveToBigTable_err _ _ _ _ _ _ hb
    have e2 := saveToES_ok _ _ _ _ _ he
    have hface := detectFacesURI_ok _ _ _ hd
    subst hface
    have hidx : world3.index =
        putDocument world1.index env.uuidNew (populatedPost env r u header attrs true) := by
      rw [e3, e2]
    have hput := putDocument_spec world1.index env.uuidNew
      (populatedPost env r u header attrs true)
    refine ⟨populatedPost env r u header attrs true, err, rfl, ?_, ?_, rfl, rfl, rfl, ?_⟩
    · simpa only [hidx] using hput.1
    · simpa only [hidx] using hput.2
    · intro senv sw sr backend
      have hmem : (env.uuidNew, populatedPost env r u header attrs true) ∈ world3.index := by
        simpa only [hidx] using hput.1
      refine ⟨fun hdeny => ⟨fun hret => ?_, fun hret => ?_⟩,
        fun hclean horder => ⟨fun hlat hlon hzero hpage hret => ?_, fun hpage hret => ?_⟩⟩
      · obtain ⟨hits, _, hw⟩ := searchAndWrite_returns _ _ _ hret
        refine ⟨collectPosts hits, ?_, not_mem_collectPosts _ _ hdeny⟩
        simp only [handlerSearch]
        rw [hw]
      · obtain ⟨hits, _, hw⟩ := searchAndWrite_returns _ _ _ hret
        refine ⟨collectPosts hits, ?_, not_mem_collectPosts _ _ hdeny⟩
        simp only [handlerSearchFace]
        rw [hw]
      · obtain ⟨hits, hs, hw⟩ := searchAndWrite_returns _ _ _ hret
        refine ⟨collectPosts hits, ?_, ?_⟩
        · simp only [handlerSearch]
          rw [hw]
        · apply mem_collectPosts _ _ _ hclean
          refine mem_esSearch backend world3.index (radiusQuery senv sr) _ hits horder hpage
            hmem ?_ hs
          simpa [queryMatches, radiusQuery, hlat, hlon, populatedPost] using hzero
      · obtain ⟨hits, hs, hw⟩ := searchAndWrite_returns _ _ _ hret
        refine ⟨collectPosts hits, ?_, ?_⟩
        · simp only [handlerSearchFace]
          rw [hw]
        · apply mem_collectPosts _ _ _ hclean
          refine mem_esSearch backend world3.index faceQuery _ hits horder hpage hmem ?_ hs
          simp [queryMatches, faceQuery, boolField, boolText, populatedPost]

/-- The submission of "hello world" with a failing row write, then the two searches over
the index it leaves, centred on the post: both return it. -/
theorem indexed_post_survives_row_failure_witness :
    ∃ doc : Post,
      doc.Message = "hello world" ∧
      (tableDownEnv.uuidNew, doc) ∈
        (handlerPost tableDownEnv World.empty ResponseWriter.new helloRequest).world.index ∧
      (∃ ps, (handlerSearch (calmEnv.searching strictBackend
          (handlerPost tableDownEnv World.empty ResponseWriter.new helloRequest).world.index)
          ResponseWriter.new helloSearch).w =
            (setHeaders ResponseWriter.new).Write (.json ps) ∧ doc ∈ ps) ∧
      (∃ ps, (handlerSearchFace (calmEnv.searching strictBackend
          (handlerPost tableDownEnv World.empty ResponseWriter.new helloRequest).world.index)
          ResponseWriter.new helloSearch).w =
            (setHeaders ResponseWriter.new).Write (.json ps) ∧ doc ∈ ps) := by
  obtain ⟨doc, err, _, hmem, huniq, hmsg, hloc, _, hsearch⟩ :=
    indexed_post_survives_row_failure tableDownEnv World.empty ResponseWriter.new helloRequest
      (by decide)
  have hclean : ¬ Denylisted helloRequest.message :=
    fun h => absurd ((containsFilteredWords_iff _).mpr h) (by decide)
  have hs := (hsearch calmEnv ResponseWriter.new helloSearch strictBackend).2 hclean
    (fun l => List.Perm.refl l)
  refine ⟨doc, hmsg, hmem, ?_, ?_⟩
  · refine hs.1 (by decide) (by decide) ?_ (by decide) rfl
    rw [hloc]
    decide
  · exact hs.2 (by decide) rfl

/-- C7 as stated fails: the submission of "this is shit" with a failing row write ends in a
panic and leaves its document in the index, yet over that index, with a backend that accepts
every distance, neither `handlerSearch` centred on the post nor `handlerSearchFace` returns
it: both write the empty slice. -/
theorem denylisted_post_indexed_not_retrievable :
    (handlerPost tableDownEnv World.empty ResponseWriter.new rudeRequest).calls.map
        (fun e => (e.call.adapter, e.ok)) =
      [(.attachmentPut, true), (.detectFace, true), (.index, true), (.writeRow, false)] ∧
    (handlerPost tableDownEnv World.empty ResponseWriter.new rudeRequest).panicked =
      some "rpc error: code = Unavailable" ∧
    (handlerPost tableDownEnv World.empty ResponseWriter.new rudeRequest).world.index =
      [("6ba7b810-9dad-11d1-80b4-00c04fd430c8",
        ⟨"alice", "this is shit", ⟨.finite 37, .finite (-122)⟩,
          "https://storage.example/post-images-286400/6ba7b810-9dad-11d1-80b4-00c04fd430c8",
          "image", true⟩)] ∧
    handlerSearch (calmEnv.searching generousBackend
        (handlerPost tableDownEnv World.empty ResponseWriter.new rudeRequest).world.index)
        ResponseWriter.new helloSearch =
      ⟨(setHeaders ResponseWriter.new).Write (.json []), none⟩ ∧
    handlerSearchFace (calmEnv.searching generousBackend
        (handlerPost tableDownEnv World.empty ResponseWriter.new rudeRequest).world.index)
        ResponseWriter.new helloSearch =
      ⟨(setHeaders ResponseWriter.new).Write (.json []), none⟩ := by
  refine ⟨by decide, by decide, by decide, ?_, ?_⟩ <;> rfl

end Around
